import Mathlib

/-
Verification of the token-monitor repository's core logic.

The Python sources are embedded shallowly:
- token counts are integers (Python ints), money amounts are exact
  rationals (Python floats; all constants and claim-relevant values are
  exactly representable, so rational arithmetic coincides with the
  float arithmetic on the inputs considered here);
- calendar days are integers (day ordinals: `date + timedelta(days=1)`
  is `d + 1`, comparison of dates is integer comparison);
- the SQLite table `daily_stats` is a list of rows together with its
  UNIQUE(date, source, model) invariant, and the upsert statement of
  `save_snapshot` is a conflict-aware insert on that list;
- external effects (reading live sources, sending the iMessage) are
  parameters of the embedded functions.
-/

set_option linter.unusedVariables false

namespace TokenMonitor

/-! ## src/pricing.py -/

/-- Python's `needle in s` substring test. -/
def substr (needle s : String) : Bool :=
  decide (needle.toList <:+: s.toList)

/-- Python's `str.lower()`.  The model names involved are ASCII, on
which lowercasing is `Char.toLower` on each character. -/
def pyLower (s : String) : String :=
  ⟨s.data.map Char.toLower⟩

/-- One entry of `MODEL_PRICING`: USD per million tokens, per category.
Every entry of the table defines all four keys, so the fields are total. -/
structure Pricing where
  input : ℚ
  output : ℚ
  cache_read : ℚ
  cache_write : ℚ
deriving DecidableEq

/-- `MODEL_PRICING` from src/pricing.py. -/
def MODEL_PRICING : List (String × Pricing) :=
  [ ("claude-opus-4-5-20250514", ⟨15.0, 75.0, 1.5, 18.75⟩)
  , ("claude-opus-4-5-20251101", ⟨15.0, 75.0, 1.5, 18.75⟩)
  , ("claude-sonnet-4-5-20250514", ⟨3.0, 15.0, 0.3, 3.75⟩)
  , ("claude-sonnet-4-5-20241022", ⟨3.0, 15.0, 0.3, 3.75⟩)
  , ("claude-haiku-4-5-20250514", ⟨0.8, 4.0, 0.08, 1.0⟩)
  , ("gemini-3-pro", ⟨1.25, 10.0, 0.125, 1.25⟩)
  , ("gemini-3-flash", ⟨0.075, 0.3, 0.0075, 0.075⟩)
  , ("gemini-2.0-flash", ⟨0.075, 0.3, 0.0075, 0.075⟩)
  , ("gemini-2.0-flash-exp", ⟨0.075, 0.3, 0.0075, 0.075⟩)
  , ("gpt-5", ⟨5.0, 15.0, 0.5, 5.0⟩)
  , ("gpt-4o", ⟨2.5, 10.0, 0.25, 2.5⟩)
  , ("gpt-4o-mini", ⟨0.15, 0.6, 0.015, 0.15⟩)
  , ("deepseek-chat", ⟨0.27, 1.1, 0.027, 0.27⟩)
  , ("deepseek-reasoner", ⟨0.55, 2.19, 0.055, 0.55⟩) ]

/-- `MODEL_ALIASES` from src/pricing.py. -/
def MODEL_ALIASES : List (String × String) :=
  [ ("opus", "claude-opus-4-5-20250514")
  , ("sonnet", "claude-sonnet-4-5-20250514")
  , ("haiku", "claude-haiku-4-5-20250514")
  , ("gemini-pro", "gemini-3-pro")
  , ("gemini-flash", "gemini-3-flash") ]

/-- `normalize_model_name` from src/pricing.py.  The sequential `if`/
`return` statements become nested `else if`; the nested `gemini` block
falls through to the later checks when neither `pro` nor `flash`
occurs, which the conjunctions reproduce. -/
def normalize_model_name (model : String) : String :=
  let model_lower := pyLower model
  match MODEL_ALIASES.find? (fun p => p.1 == model_lower) with
  | some p => p.2
  | none =>
    if substr "opus" model_lower then
      if substr "20251101" model then "claude-opus-4-5-20251101"
      else "claude-opus-4-5-20250514"
    else if substr "sonnet" model_lower then
      if substr "20241022" model then "claude-sonnet-4-5-20241022"
      else "claude-sonnet-4-5-20250514"
    else if substr "haiku" model_lower then "claude-haiku-4-5-20250514"
    else if substr "gemini" model_lower && substr "pro" model_lower then "gemini-3-pro"
    else if substr "gemini" model_lower && substr "flash" model_lower then "gemini-3-flash"
    else if substr "gpt-5" model_lower then "gpt-5"
    else if substr "gpt-4o-mini" model_lower then "gpt-4o-mini"
    else if substr "gpt-4o" model_lower then "gpt-4o"
    else if substr "deepseek" model_lower then
      if substr "reasoner" model_lower || substr "r1" model_lower then "deepseek-reasoner"
      else "deepseek-chat"
    else model

/-- `get_model_pricing` from src/pricing.py. -/
def get_model_pricing (model : String) : Option Pricing :=
  (MODEL_PRICING.find? (fun p => p.1 == normalize_model_name model)).map (·.2)

/-- `estimate_cost` from src/pricing.py.  `if not pricing: return 0.0`
is the `none` branch (table entries are non-empty dicts, so falsy iff
absent); all table entries carry the cache keys, so `.get(k, 0)` is the
field itself.  Note: no rounding is applied here. -/
def estimate_cost (model : String)
    (input_tokens output_tokens cache_read cache_write : ℤ) : ℚ :=
  match get_model_pricing model with
  | none => 0
  | some pricing =>
      (input_tokens : ℚ) / 1000000 * pricing.input
      + (output_tokens : ℚ) / 1000000 * pricing.output
      + (cache_read : ℚ) / 1000000 * pricing.cache_read
      + (cache_write : ℚ) / 1000000 * pricing.cache_write

/-! ## Python's built-in round

`round(x, n)` rounds to `n` decimal digits, ties to even (banker's
rounding).  Modelled exactly on rationals; the binary-float
representation error of Python is not modelled, which is exact for
every value these claims evaluate. -/

/-- Round a rational to the nearest integer, ties to even. -/
def pyRoundInt (x : ℚ) : ℤ :=
  let f := ⌊x⌋
  let r := x - f
  if r < 1 / 2 then f
  else if 1 / 2 < r then f + 1
  else if f % 2 = 0 then f else f + 1

/-- Python's `round(x, n)`. -/
def pyRound (x : ℚ) (n : ℕ) : ℚ :=
  (pyRoundInt (x * 10 ^ n) : ℚ) / 10 ^ n

/-! ## src/history.py: the two ledger cost estimators -/

/-- The local `pricing` table inside `estimate_claude_cost`. -/
def claudePricingTable : List (String × Pricing) :=
  [ ("claude-sonnet-4-20250514", ⟨3.0, 15.0, 0.30, 3.75⟩)
  , ("claude-opus-4-5-20251101", ⟨15.0, 75.0, 1.50, 18.75⟩)
  , ("claude-3-5-sonnet-20241022", ⟨3.0, 15.0, 0.30, 3.75⟩)
  , ("claude-3-opus-20240229", ⟨15.0, 75.0, 1.50, 18.75⟩) ]

/-- `estimate_claude_cost` from src/history.py: looks the model up in
its own table and defaults to the `claude-sonnet-4-20250514` entry,
then rounds to 4 decimal places. -/
def estimate_claude_cost (model : String)
    (input_tokens output_tokens cache_read cache_write : ℤ) : ℚ :=
  let prices :=
    ((claudePricingTable.find? (fun p => p.1 == model)).map (·.2)).getD
      ⟨3.0, 15.0, 0.30, 3.75⟩
  pyRound
    ((input_tokens : ℚ) / 1000000 * prices.input
      + (output_tokens : ℚ) / 1000000 * prices.output
      + (cache_read : ℚ) / 1000000 * prices.cache_read
      + (cache_write : ℚ) / 1000000 * prices.cache_write) 4

/-- `estimate_moltbot_cost` from src/history.py. -/
def estimate_moltbot_cost (model : String)
    (input_tokens output_tokens : ℤ) : ℚ :=
  let ml := pyLower model
  let prices : ℚ × ℚ :=
    if substr "gpt-3.5" ml then (0.5, 1.5)
    else if substr "gpt-4o" ml then (2.5, 10.0)
    else if substr "claude" ml then (3.0, 15.0)
    else (10.0, 30.0)
  pyRound
    ((input_tokens : ℚ) / 1000000 * prices.1
      + (output_tokens : ℚ) / 1000000 * prices.2) 4

/-! ## src/history.py: `get_trend`'s percentage-change computation -/

/-- The week-over-week percentage-change computation appearing (twice,
for tokens and for cost) in `get_trend`:
`if last_week_total > 0: ((this - last) / last) * 100
 else: 0 if this == 0 else 100`. -/
def pct_change (previous current : ℚ) : ℚ :=
  if previous > 0 then ((current - previous) / previous) * 100
  else if current = 0 then 0 else 100

/-! ## src/history.py: the `daily_stats` table and `save_snapshot`

A row of the SQLite table (the `id` and `created_at` columns are
omitted: no embedded operation reads them, and the upsert never
updates them).  Dates are day ordinals. -/

structure Row where
  date : ℤ
  source : String
  model : String
  input_tokens : ℤ
  output_tokens : ℤ
  cache_read : ℤ
  cache_write : ℤ
  sessions : ℤ
  cost_estimate : ℚ
deriving DecidableEq

/-- The UNIQUE(date, source, model) key of a row. -/
def Row.key (r : Row) : ℤ × String × String :=
  (r.date, r.source, r.model)

/-- The `ON CONFLICT ... DO UPDATE SET` clause.  The claude-side
statement updates all six mutable columns (`updateCache = true`); the
moltbot-side statement does not list `cache_read`/`cache_write`
(`updateCache = false`). -/
def applyUpdate (updateCache : Bool) (old r : Row) : Row :=
  { old with
    input_tokens := r.input_tokens
    output_tokens := r.output_tokens
    cache_read := if updateCache then r.cache_read else old.cache_read
    cache_write := if updateCache then r.cache_write else old.cache_write
    sessions := r.sessions
    cost_estimate := r.cost_estimate }

/-- `INSERT ... ON CONFLICT(date, source, model) DO UPDATE`: if a row
with the key exists it is updated in place, otherwise the new row is
appended. -/
def upsertRow (updateCache : Bool) (db : List Row) (r : Row) : List Row :=
  if ∃ x ∈ db, x.key = r.key then
    db.map (fun x => if x.key = r.key then applyUpdate updateCache x r else x)
  else db ++ [r]

/-- The UNIQUE constraint of the table: key values are pairwise
distinct. -/
def ledgerWF (db : List Row) : Prop :=
  (db.map Row.key).Nodup

/-- Verification predicate: upserting `r` leaves `db` unchanged — a
row with `r`'s key is present, and every row with that key is a fixed
point of the conflict update. -/
def rowFixed (updateCache : Bool) (db : List Row) (r : Row) : Prop :=
  (∃ x ∈ db, x.key = r.key)
  ∧ ∀ x ∈ db, x.key = r.key → applyUpdate updateCache x r = x

/-- `SELECT ... WHERE date = ? AND source = ? AND model = ?` (first
matching row; under `ledgerWF` there is at most one). -/
def dbLookup (db : List Row) (k : ℤ × String × String) : Option Row :=
  db.find? (fun x => decide (x.key = k))

/-- One `models` entry of a Claude Code stats snapshot. -/
structure ClaudeUsage where
  input : ℤ
  output : ℤ
  cache_read : ℤ
  cache_write : ℤ
deriving DecidableEq

/-- The `claude_stats` dict consumed by `save_snapshot`: the
`total_sessions` count and the `models` mapping (association list with
the distinct-keys property of a Python dict carried as a hypothesis
where needed). -/
structure ClaudeStats where
  total_sessions : ℤ
  models : List (String × ClaudeUsage)
deriving DecidableEq

/-- One `by_model` entry of a moltbot stats snapshot. -/
structure MoltbotUsage where
  input : ℤ
  output : ℤ
  sessions : ℤ
deriving DecidableEq

/-- The `moltbot_stats` dict consumed by `save_snapshot`. -/
structure MoltbotStats where
  by_model : List (String × MoltbotUsage)
deriving DecidableEq

/-- The row inserted by the claude-side loop of `save_snapshot` for
one `models` item: cost via `estimate_claude_cost`, sessions from the
snapshot's `total_sessions`. -/
def claudeRow (d : ℤ) (sessions : ℤ) (m : String × ClaudeUsage) : Row :=
  { date := d
    source := "claude"
    model := m.1
    input_tokens := m.2.input
    output_tokens := m.2.output
    cache_read := m.2.cache_read
    cache_write := m.2.cache_write
    sessions := sessions
    cost_estimate := estimate_claude_cost m.1 m.2.input m.2.output m.2.cache_read m.2.cache_write }

/-- The row inserted by the moltbot-side loop of `save_snapshot` for
one `by_model` item: cost via `estimate_moltbot_cost` on the full
`provider/model` key, cache columns written as 0. -/
def moltbotRow (d : ℤ) (m : String × MoltbotUsage) : Row :=
  { date := d
    source := "moltbot"
    model := m.1
    input_tokens := m.2.input
    output_tokens := m.2.output
    cache_read := 0
    cache_write := 0
    sessions := m.2.sessions
    cost_estimate := estimate_moltbot_cost m.1 m.2.input m.2.output }

/-- `save_snapshot` from src/history.py: upsert a claude row per
`models` item, then a moltbot row per `by_model` item.  (The Python
function returns the number of processed items; only the resulting
table matters here.) -/
def save_snapshot (claude_stats : ClaudeStats) (moltbot_stats : MoltbotStats)
    (d : ℤ) (db : List Row) : List Row :=
  let db1 := claude_stats.models.foldl
    (fun acc m => upsertRow true acc (claudeRow d claude_stats.total_sessions m)) db
  moltbot_stats.by_model.foldl
    (fun acc m => upsertRow false acc (moltbotRow d m)) db1

/-- The upserts performed by one `save_snapshot` call, in order, each
tagged with its `updateCache` mask. -/
def snapshotRows (claude_stats : ClaudeStats) (moltbot_stats : MoltbotStats)
    (d : ℤ) : List (Bool × Row) :=
  claude_stats.models.map (fun m => (true, claudeRow d claude_stats.total_sessions m))
    ++ moltbot_stats.by_model.map (fun m => (false, moltbotRow d m))

/-- Fold a sequence of tagged upserts over the table. -/
def upsertAll (db : List Row) (rows : List (Bool × Row)) : List Row :=
  rows.foldl (fun acc br => upsertRow br.1 acc br.2) db

/-! ## src/history.py: `get_trend` -/

/-- SQL `SUM` over the selected values: `NULL` (`none`) when no row is
selected. -/
def sqlSumInt (xs : List ℤ) : Option ℤ :=
  if xs.isEmpty then none else some xs.sum

/-- SQL `SUM` for the REAL column. -/
def sqlSumRat (xs : List ℚ) : Option ℚ :=
  if xs.isEmpty then none else some xs.sum

/-- Python's `value or default` on an optional integer: `None` and `0`
are both falsy. -/
def pyOrInt (o : Option ℤ) (d : ℤ) : ℤ :=
  match o with
  | none => d
  | some x => if x = 0 then d else x

/-- Python's `value or default` on an optional rational. -/
def pyOrRat (o : Option ℚ) (d : ℚ) : ℚ :=
  match o with
  | none => d
  | some x => if x = 0 then d else x

/-- SQL `COUNT(DISTINCT date)` over a selection of rows. -/
def countDistinctDates (rows : List Row) : ℕ :=
  (rows.map Row.date).dedup.length

/-- The dictionary returned by `get_trend`. -/
structure TrendReport where
  today_input : ℤ
  today_output : ℤ
  today_cost : ℚ
  this_week_input : ℤ
  this_week_output : ℤ
  this_week_cost : ℚ
  this_week_days : ℕ
  last_week_input : ℤ
  last_week_output : ℤ
  last_week_cost : ℚ
  last_week_days : ℕ
  daily_avg_input : ℤ
  daily_avg_output : ℤ
  daily_avg_cost : ℚ
  tokens_change_percent : ℚ
  cost_change_percent : ℚ
deriving DecidableEq

/-- `get_trend` from src/history.py, with the table contents and the
current day as parameters.  The three `WHERE` clauses become filters;
`x or 0` and `x or 1` become `pyOrInt`/`pyOrRat`; the two inline
percentage-change computations are `pct_change`. -/
def get_trend (db : List Row) (today : ℤ) : TrendReport :=
  let week_ago := today - 7
  let two_weeks_ago := today - 14
  let thisWeekRows := db.filter (fun r => week_ago ≤ r.date)
  let lastWeekRows := db.filter (fun r => two_weeks_ago ≤ r.date ∧ r.date < week_ago)
  let todayRows := db.filter (fun r => r.date = today)
  let twInput := pyOrInt (sqlSumInt (thisWeekRows.map Row.input_tokens)) 0
  let twOutput := pyOrInt (sqlSumInt (thisWeekRows.map Row.output_tokens)) 0
  let twCost := pyOrRat (sqlSumRat (thisWeekRows.map Row.cost_estimate)) 0
  let lwInput := pyOrInt (sqlSumInt (lastWeekRows.map Row.input_tokens)) 0
  let lwOutput := pyOrInt (sqlSumInt (lastWeekRows.map Row.output_tokens)) 0
  let lwCost := pyOrRat (sqlSumRat (lastWeekRows.map Row.cost_estimate)) 0
  let this_week_days := if countDistinctDates thisWeekRows = 0 then 1 else countDistinctDates thisWeekRows
  let last_week_days := if countDistinctDates lastWeekRows = 0 then 1 else countDistinctDates lastWeekRows
  let daily_avg_input := (twInput : ℚ) / (this_week_days : ℚ)
  let daily_avg_output := (twOutput : ℚ) / (this_week_days : ℚ)
  let daily_avg_cost := twCost / (this_week_days : ℚ)
  let this_week_total := twInput + twOutput
  let last_week_total := lwInput + lwOutput
  let week_over_week := pct_change (last_week_total : ℚ) (this_week_total : ℚ)
  let cost_wow := pct_change lwCost twCost
  { today_input := pyOrInt (sqlSumInt (todayRows.map Row.input_tokens)) 0
    today_output := pyOrInt (sqlSumInt (todayRows.map Row.output_tokens)) 0
    today_cost := pyOrRat (sqlSumRat (todayRows.map Row.cost_estimate)) 0
    this_week_input := twInput
    this_week_output := twOutput
    this_week_cost := twCost
    this_week_days := this_week_days
    last_week_input := lwInput
    last_week_output := lwOutput
    last_week_cost := lwCost
    last_week_days := last_week_days
    daily_avg_input := pyRoundInt daily_avg_input
    daily_avg_output := pyRoundInt daily_avg_output
    daily_avg_cost := pyRound daily_avg_cost 4
    tokens_change_percent := pyRound week_over_week 2
    cost_change_percent := pyRound cost_wow 2 }

/-! ## src/cron_report.py: the notification scheduler -/

/-- The catch-up loop body of `check_missed_days`: starting from
`current`, step one day at a time while `current < today`, collecting
each stepped-to day, and stop as soon as 3 days are collected. -/
def missedLoop (current today : ℤ) (missed : List ℤ) : List ℤ :=
  if h : current < today then
    let c := current + 1
    let m := missed ++ [c]
    if 3 ≤ m.length then m else missedLoop c today m
  else missed
termination_by (today - current).toNat
decreasing_by
  simp_wf
  omega

/-- `check_missed_days` from src/cron_report.py, with the persisted
`last_sent` date and today's date as parameters.  `None` means the
marker file is missing or unreadable. -/
def check_missed_days (last_sent : Option ℤ) (today : ℤ) : List ℤ :=
  match last_sent with
  | none => [today]
  | some ls => if today ≤ ls then [] else missedLoop ls today []

/-- The observable outcome of one `run_daily_report` invocation: the
persisted `last_sent` state, the ledger contents, and how many
`save_snapshot` calls and `send_imessage` calls were made. -/
structure RunOutcome where
  last_sent : Option ℤ
  db : List Row
  snapshot_saves : ℕ
  delivery_attempts : ℕ
deriving DecidableEq

/-- `run_daily_report` from src/cron_report.py.  External behaviour is
parameterised: `claude_stats`/`moltbot_stats` are the live-source
reads, `send_ok` is the boolean result of `send_imessage`.  The early
return (`if send and check_missed` and no missed day) skips both the
snapshot save and the delivery; otherwise the snapshot is saved, and
when `send` is set the delivery is attempted and `set_last_sent_date`
runs exactly when `send_imessage` returned success. -/
def run_daily_report (send check_missed : Bool) (today : ℤ)
    (claude_stats : ClaudeStats) (moltbot_stats : MoltbotStats)
    (send_ok : Bool) (last_sent : Option ℤ) (db : List Row) : RunOutcome :=
  if send && check_missed && (check_missed_days last_sent today).isEmpty then
    { last_sent := last_sent, db := db, snapshot_saves := 0, delivery_attempts := 0 }
  else
    let db1 := save_snapshot claude_stats moltbot_stats today db
    if send then
      if send_ok then
        { last_sent := some today, db := db1, snapshot_saves := 1, delivery_attempts := 1 }
      else
        { last_sent := last_sent, db := db1, snapshot_saves := 1, delivery_attempts := 1 }
    else
      { last_sent := last_sent, db := db1, snapshot_saves := 1, delivery_attempts := 0 }

/-! ## Rounding lemmas -/

theorem pyRound_is_multiple (x : ℚ) (n : ℕ) :
    ∃ k : ℤ, pyRound x n = (k : ℚ) / 10 ^ n :=
  ⟨pyRoundInt (x * 10 ^ n), rfl⟩

theorem pyRound_int_div (k : ℤ) (n : ℕ) :
    pyRound ((k : ℚ) / 10 ^ n) n = (k : ℚ) / 10 ^ n := by
  have h10 : ((10 : ℚ) ^ n) ≠ 0 := by positivity
  unfold pyRound pyRoundInt
  rw [div_mul_cancel₀ _ h10]
  norm_num [Int.floor_intCast]

/-! ## C3 -/

/-- C3: for every model whose normalized identity has no pricing
entry, and all non-negative token counts, `estimate_cost` returns
exactly 0 (it is a total function, so no error is possible). -/
theorem C3_unpriced_model_cost_zero (model : String)
    (input_tokens output_tokens cache_read cache_write : ℤ)
    (h : get_model_pricing model = none)
    (hi : 0 ≤ input_tokens) (ho : 0 ≤ output_tokens)
    (hcr : 0 ≤ cache_read) (hcw : 0 ≤ cache_write) :
    estimate_cost model input_tokens output_tokens cache_read cache_write = 0 := by
  simp [estimate_cost, h]

/-- C3 witness: the model name "m" normalizes to itself and is
unpriced, so its estimate is 0. -/
theorem C3_unpriced_model_cost_zero_witness :
    estimate_cost "m" 1000000 500000 10 20 = 0 :=
  C3_unpriced_model_cost_zero "m" 1000000 500000 10 20 (by decide)
    (by decide) (by decide) (by decide) (by decide)

/-! ## C5 -/

theorem estimate_cost_gemini_flash_one_token :
    estimate_cost "gemini-3-flash" 1 0 0 0 = 3 / 40000000 := by
  have hn : normalize_model_name "gemini-3-flash" = "gemini-3-flash" := by decide
  have h : get_model_pricing "gemini-3-flash" = some ⟨0.075, 0.3, 0.0075, 0.075⟩ := by
    simp [get_model_pricing, hn, MODEL_PRICING]
  simp only [estimate_cost, h]
  norm_num

/-- C5 counterexample: `estimate_cost` itself applies no rounding.
For the priced model "gemini-3-flash" with a single input token the
returned cost is 3/40000000 = 0.000000075, which is not an integer
multiple of 0.0001, i.e. not a value rounded to 4 decimal places. -/
theorem C5_counterexample :
    estimate_cost "gemini-3-flash" 1 0 0 0 = 3 / 40000000
    ∧ ¬ ∃ k : ℤ, estimate_cost "gemini-3-flash" 1 0 0 0 = (k : ℚ) / 10 ^ 4 := by
  refine ⟨estimate_cost_gemini_flash_one_token, ?_⟩
  rw [estimate_cost_gemini_flash_one_token]
  rintro ⟨k, hk⟩
  rw [div_eq_div_iff (by norm_num) (by norm_num)] at hk
  norm_num at hk
  have h2 : (30000 : ℚ) = ((k * 40000000 : ℤ) : ℚ) := by push_cast; linarith
  have h3 : (30000 : ℤ) = k * 40000000 := by exact_mod_cast h2
  omega

/-- C5 (amended): the 4-decimal rounding lives in the ledger's cost
estimators `estimate_claude_cost` and `estimate_moltbot_cost`, not in
`estimate_cost`.  Their results are always integer multiples of
0.0001 and are fixed points of re-rounding, so re-computing the
estimate for identical inputs always stores the identical value. -/
theorem C5_amended_ledger_cost_rounded (model : String)
    (input_tokens output_tokens cache_read cache_write : ℤ) :
    (∃ k : ℤ, estimate_claude_cost model input_tokens output_tokens cache_read cache_write
      = (k : ℚ) / 10 ^ 4)
    ∧ (∃ k : ℤ, estimate_moltbot_cost model input_tokens output_tokens = (k : ℚ) / 10 ^ 4)
    ∧ pyRound (estimate_claude_cost model input_tokens output_tokens cache_read cache_write) 4
      = estimate_claude_cost model input_tokens output_tokens cache_read cache_write
    ∧ pyRound (estimate_moltbot_cost model input_tokens output_tokens) 4
      = estimate_moltbot_cost model input_tokens output_tokens := by
  have hc : ∃ k : ℤ, estimate_claude_cost model input_tokens output_tokens cache_read cache_write
      = (k : ℚ) / 10 ^ 4 := by
    simp only [estimate_claude_cost]
    exact pyRound_is_multiple _ 4
  have hm : ∃ k : ℤ, estimate_moltbot_cost model input_tokens output_tokens
      = (k : ℚ) / 10 ^ 4 := by
    simp only [estimate_moltbot_cost]
    exact pyRound_is_multiple _ 4
  obtain ⟨kc, hkc⟩ := hc
  obtain ⟨km, hkm⟩ := hm
  refine ⟨⟨kc, hkc⟩, ⟨km, hkm⟩, ?_, ?_⟩
  · rw [hkc, pyRound_int_div]
  · rw [hkm, pyRound_int_div]

/-! ## C6 -/

/-- C6: the percentage-change computation of `get_trend` returns
(C − P)/P × 100 when P > 0, 0 when P = 0 and C = 0, and exactly 100
when P = 0 and C > 0; in particular the four example pairs of the
spec evaluate as stated. -/
theorem C6_pct_change_spec (P C : ℚ) (hP : 0 ≤ P) (hC : 0 ≤ C) :
    (0 < P → pct_change P C = (C - P) / P * 100)
    ∧ (P = 0 → C = 0 → pct_change P C = 0)
    ∧ (P = 0 → 0 < C → pct_change P C = 100)
    ∧ pct_change 0 0 = 0 ∧ pct_change 0 50 = 100
    ∧ pct_change 100 150 = 50 ∧ pct_change 100 50 = -50 := by
  refine ⟨fun h => ?_, fun h1 h2 => ?_, fun h1 h2 => ?_, ?_, ?_, ?_, ?_⟩
  · simp [pct_change, h]
  · simp [pct_change, h1, h2]
  · simp [pct_change, h1, h2.ne']
  · norm_num [pct_change]
  · norm_num [pct_change]
  · norm_num [pct_change]
  · norm_num [pct_change]

/-- C6 witness: the spec's example P = 100, C = 150 gives 50. -/
theorem C6_pct_change_spec_witness :
    pct_change 100 150 = 50 :=
  (C6_pct_change_spec 100 150 (by norm_num) (by norm_num)).2.2.2.2.2.1

/-! ## The catch-up loop in closed form -/

/-- Running the loop from `current` with accumulator `missed` (fewer
than 3 entries) appends the next `min gap (3 - missed.length)` days,
where `gap` is the number of days from `current` to `today`. -/
theorem missedLoop_spec (today : ℤ) :
    ∀ (n : ℕ) (current : ℤ) (missed : List ℤ),
      (today - current).toNat = n → missed.length < 3 →
      missedLoop current today missed
        = missed ++ (List.range (min (today - current).toNat (3 - missed.length))).map
            (fun i : ℕ => current + 1 + (i : ℤ)) := by
  intro n
  induction n using Nat.strong_induction_on with
  | _ n ih =>
    intro current missed hn hlen
    rw [missedLoop]
    split
    · rename_i hlt
      by_cases h3 : 3 ≤ (missed ++ [current + 1]).length
      · rw [if_pos h3]
        have hlen2 : missed.length = 2 := by
          simp at h3
          omega
        have hk : min (today - current).toNat (3 - missed.length) = 1 := by
          omega
        rw [hk]
        simp [List.range_succ]
      · rw [if_neg h3]
        have hlen1 : (missed ++ [current + 1]).length < 3 := by omega
        have hrec := ih (today - (current + 1)).toNat (by omega) (current + 1)
          (missed ++ [current + 1]) rfl hlen1
        rw [hrec]
        have hk : min (today - current).toNat (3 - missed.length)
            = min (today - (current + 1)).toNat (3 - (missed ++ [current + 1]).length) + 1 := by
          simp
          omega
        rw [hk, List.range_succ_eq_map]
        simp [List.append_assoc]
        intro a h1 h2
        ring
    · rename_i hge
      have hk : min (today - current).toNat (3 - missed.length) = 0 := by
        omega
      rw [hk]
      simp

/-- For a last-sent date strictly before today, `check_missed_days`
returns the first `min gap 3` days after it, oldest first. -/
theorem check_missed_days_of_lt (ls today : ℤ) (h : ls < today) :
    check_missed_days (some ls) today
      = (List.range (min (today - ls).toNat 3)).map (fun i : ℕ => ls + 1 + (i : ℤ)) := by
  have hm := missedLoop_spec today (today - ls).toNat ls [] rfl (by norm_num)
  simp only [check_missed_days, List.length_nil, Nat.sub_zero] at hm ⊢
  rw [if_neg (by omega)]
  exact hm

/-! ## C1 -/

/-- C1 counterexample: with last_sent 10 days before today (today =
day 10, last_sent = day 0) the function returns the oldest three
missed days [1, 2, 3], not the most recent three consecutive days
ending today, which would be [8, 9, 10]. -/
theorem C1_counterexample :
    check_missed_days (some 0) 10 = [1, 2, 3]
    ∧ check_missed_days (some 0) 10 ≠ [8, 9, 10] := by
  have h : check_missed_days (some 0) 10 = [1, 2, 3] := by
    rw [check_missed_days_of_lt 0 10 (by norm_num)]
    decide
  refine ⟨h, ?_⟩
  rw [h]
  decide

/-- C1 (amended): for every persisted last_sent date strictly earlier
than today, `check_missed_days` returns a non-empty list of at most 3
consecutive calendar days, all strictly after last_sent and at most
today, starting at last_sent + 1; when last_sent is 10 days before
today it returns exactly the oldest 3 missed days
[last_sent + 1, last_sent + 2, last_sent + 3]. -/
theorem C1_amended_catch_up (ls today : ℤ) (h : ls < today) :
    check_missed_days (some ls) today ≠ []
    ∧ (check_missed_days (some ls) today).length ≤ 3
    ∧ (check_missed_days (some ls) today).Chain' (fun a b => b = a + 1)
    ∧ (∀ x ∈ check_missed_days (some ls) today, ls < x ∧ x ≤ today)
    ∧ (check_missed_days (some ls) today).head? = some (ls + 1)
    ∧ (today - ls = 10 → check_missed_days (some ls) today = [ls + 1, ls + 2, ls + 3]) := by
  rw [check_missed_days_of_lt ls today h]
  have hgap : 1 ≤ (today - ls).toNat := by omega
  have hk1 : 1 ≤ min (today - ls).toNat 3 := le_min hgap (by norm_num)
  refine ⟨?_, ?_, ?_, ?_, ?_, ?_⟩
  · intro hcon
    have := congrArg List.length hcon
    simp at this
    omega
  · simp [min_le_right]
  · rw [List.chain'_map]
    rcases Nat.exists_eq_add_of_le hk1 with ⟨j, hj⟩
    rw [hj, Nat.add_comm 1 j, List.chain'_range_succ]
    intro m hm
    push_cast
    ring
  · intro x hx
    simp only [List.mem_map, List.mem_range] at hx
    obtain ⟨i, hi, rfl⟩ := hx
    have hile : i < (today - ls).toNat := lt_of_lt_of_le hi (min_le_left _ _)
    omega
  · rcases Nat.exists_eq_add_of_le hk1 with ⟨j, hj⟩
    rw [hj, Nat.add_comm 1 j, List.range_succ_eq_map]
    simp
  · intro h10
    have ht : (today - ls).toNat = 10 := by omega
    rw [ht]
    norm_num
    simp [List.range_succ]
    omega

/-- C1 witness: last_sent = day 0, today = day 10: the catch-up list
is the three oldest missed days [1, 2, 3]. -/
theorem C1_amended_catch_up_witness :
    check_missed_days (some 0) 10 = [0 + 1, 0 + 2, 0 + 3] :=
  (C1_amended_catch_up 0 10 (by norm_num)).2.2.2.2.2 (by norm_num)

/-! ## C8 -/

/-- C8: when the persisted last_sent date equals today, a send
evaluation (`run_daily_report` with send=True) returns after the
"already sent" early exit: the ledger is untouched, no snapshot is
saved and no delivery is attempted. -/
theorem C8_sent_today_noop (today : ℤ) (claude_stats : ClaudeStats)
    (moltbot_stats : MoltbotStats) (send_ok : Bool) (db : List Row) :
    run_daily_report true true today claude_stats moltbot_stats send_ok (some today) db
      = { last_sent := some today, db := db, snapshot_saves := 0, delivery_attempts := 0 } := by
  have h : check_missed_days (some today) today = [] := by
    simp [check_missed_days]
  simp [run_daily_report, h]

/-! ## C10 -/

/-- C10: a persisted last_sent date strictly later than today (clock
rollback) also makes `check_missed_days` return the empty list, and a
send evaluation then skips both ingestion and delivery, exactly like
the already-sent case. -/
theorem C10_future_last_sent_noop (ls today : ℤ) (h : today < ls)
    (claude_stats : ClaudeStats) (moltbot_stats : MoltbotStats)
    (send_ok : Bool) (db : List Row) :
    check_missed_days (some ls) today = []
    ∧ run_daily_report true true today claude_stats moltbot_stats send_ok (some ls) db
      = { last_sent := some ls, db := db, snapshot_saves := 0, delivery_attempts := 0 } := by
  have hc : check_missed_days (some ls) today = [] := by
    simp only [check_missed_days]
    rw [if_pos (le_of_lt h)]
  exact ⟨hc, by simp [run_daily_report, hc]⟩

/-- C10 witness: last_sent = day 5, today = day 3. -/
theorem C10_future_last_sent_noop_witness :
    check_missed_days (some 5) 3 = []
    ∧ run_daily_report true true 3 ⟨0, []⟩ ⟨[]⟩ true (some 5) []
      = { last_sent := some 5, db := [], snapshot_saves := 0, delivery_attempts := 0 } :=
  C10_future_last_sent_noop 5 3 (by norm_num) ⟨0, []⟩ ⟨[]⟩ true []

/-! ## C7 -/

/-- C7: `set_last_sent_date` runs only on a successful
`send_imessage`: a failed delivery leaves the persisted last_sent
unchanged, and whenever last_sent changed the delivery was attempted,
succeeded, and the new value is today. -/
theorem C7_last_sent_advances_only_on_success (send check_missed : Bool) (today : ℤ)
    (claude_stats : ClaudeStats) (moltbot_stats : MoltbotStats)
    (send_ok : Bool) (last_sent : Option ℤ) (db : List Row) :
    (send_ok = false →
      (run_daily_report send check_missed today claude_stats moltbot_stats send_ok last_sent db).last_sent
        = last_sent)
    ∧ ((run_daily_report send check_missed today claude_stats moltbot_stats send_ok last_sent db).last_sent
        ≠ last_sent →
      send_ok = true ∧ send = true
      ∧ (run_daily_report send check_missed today claude_stats moltbot_stats send_ok last_sent db).delivery_attempts = 1
      ∧ (run_daily_report send check_missed today claude_stats moltbot_stats send_ok last_sent db).last_sent
        = some today) := by
  by_cases hm : (check_missed_days last_sent today).isEmpty <;>
    cases send <;> cases check_missed <;> cases send_ok <;>
      simp_all [run_daily_report]

/-- C7 witness: a failed send (send_ok = false) leaves last_sent at
its prior value `none`. -/
theorem C7_last_sent_advances_only_on_success_witness :
    (run_daily_report true true 0 ⟨0, []⟩ ⟨[]⟩ false none []).last_sent = none :=
  (C7_last_sent_advances_only_on_success true true 0 ⟨0, []⟩ ⟨[]⟩ false none []).1 rfl

/-! ## C9 -/

/-- `SUM(...) or 0` collapses to the plain sum: `NULL` only arises
from an empty selection (sum 0), and a stored 0 is replaced by the
same 0. -/
theorem pyOrInt_sqlSumInt (xs : List ℤ) : pyOrInt (sqlSumInt xs) 0 = xs.sum := by
  by_cases hx : xs.isEmpty
  · rw [List.isEmpty_iff] at hx
    subst hx
    rfl
  · simp only [sqlSumInt, hx, Bool.false_eq_true, if_false, pyOrInt]
    split
    · omega
    · rfl

theorem pyOrRat_sqlSumRat (xs : List ℚ) : pyOrRat (sqlSumRat xs) 0 = xs.sum := by
  by_cases hx : xs.isEmpty
  · rw [List.isEmpty_iff] at hx
    subst hx
    rfl
  · simp only [sqlSumRat, hx, Bool.false_eq_true, if_false, pyOrRat]
    split
    · rename_i h0
      rw [h0]
    · rfl

/-- `n or 1` on a count is `max n 1`. -/
theorem ite_zero_eq_max (n : ℕ) : (if n = 0 then 1 else n) = max n 1 := by
  rcases n with _ | m
  · simp
  · simp [Nat.max_eq_left (by omega : 1 ≤ m + 1)]

/-- C9: `get_trend`'s daily averages divide the this-week totals
(plain sums over the rows with date ≥ today − 7) by the number of
distinct dates present in that window clamped below by 1, so the
divisor is always positive and the division can never be by zero. -/
theorem C9_daily_average_divisor (db : List Row) (today : ℤ) :
    (get_trend db today).this_week_days
      = max (countDistinctDates (db.filter (fun r => today - 7 ≤ r.date))) 1
    ∧ 0 < (get_trend db today).this_week_days
    ∧ (get_trend db today).daily_avg_input
      = pyRoundInt ((((db.filter (fun r => today - 7 ≤ r.date)).map Row.input_tokens).sum : ℚ)
          / ((get_trend db today).this_week_days : ℚ))
    ∧ (get_trend db today).daily_avg_output
      = pyRoundInt ((((db.filter (fun r => today - 7 ≤ r.date)).map Row.output_tokens).sum : ℚ)
          / ((get_trend db today).this_week_days : ℚ))
    ∧ (get_trend db today).daily_avg_cost
      = pyRound (((db.filter (fun r => today - 7 ≤ r.date)).map Row.cost_estimate).sum
          / ((get_trend db today).this_week_days : ℚ)) 4 := by
  refine ⟨?_, ?_, ?_, ?_, ?_⟩ <;>
    simp only [get_trend, pyOrInt_sqlSumInt, pyOrRat_sqlSumRat, ite_zero_eq_max]
  · exact lt_of_lt_of_le Nat.zero_lt_one (le_max_right _ _)


/-! ## Upsert infrastructure for C4 and C2 -/

theorem applyUpdate_key (uc : Bool) (x r : Row) :
    (applyUpdate uc x r).key = x.key := rfl

theorem applyUpdate_self (uc : Bool) (r : Row) :
    applyUpdate uc r r = r := by
  cases uc <;> rfl

theorem applyUpdate_applyUpdate (uc : Bool) (x r : Row) :
    applyUpdate uc (applyUpdate uc x r) r = applyUpdate uc x r := by
  cases uc <;> rfl

theorem applyUpdate_true_eq (x r : Row) (h : x.key = r.key) :
    applyUpdate true x r = r := by
  cases x
  cases r
  simp only [Row.key, Prod.mk.injEq] at h
  obtain ⟨h1, h2, h3⟩ := h
  subst h1
  subst h2
  subst h3
  simp [applyUpdate]

theorem upsertRow_of_rowFixed (uc : Bool) (db : List Row) (r : Row)
    (h : rowFixed uc db r) : upsertRow uc db r = db := by
  obtain ⟨hex, hfix⟩ := h
  rw [upsertRow, if_pos hex]
  have hmap : ∀ x ∈ db, (if x.key = r.key then applyUpdate uc x r else x) = id x := by
    intro x hx
    split
    · exact hfix x hx ‹_›
    · rfl
  rw [List.map_congr_left hmap, List.map_id]

theorem rowFixed_upsertRow_self (uc : Bool) (db : List Row) (r : Row) :
    rowFixed uc (upsertRow uc db r) r := by
  rw [upsertRow]
  split
  · rename_i hex
    obtain ⟨x, hx, hkey⟩ := hex
    constructor
    · refine ⟨applyUpdate uc x r, ?_, by rw [applyUpdate_key]; exact hkey⟩
      have := List.mem_map_of_mem (fun y => if y.key = r.key then applyUpdate uc y r else y) hx
      simpa [hkey] using this
    · intro y hy hykey
      rw [List.mem_map] at hy
      obtain ⟨x', hx', rfl⟩ := hy
      by_cases hk : x'.key = r.key
      · rw [if_pos hk]
        exact applyUpdate_applyUpdate uc x' r
      · rw [if_neg hk] at hykey ⊢
        exact absurd hykey hk
  · rename_i hex
    constructor
    · exact ⟨r, by simp, rfl⟩
    · intro y hy hykey
      rcases List.mem_append.mp hy with hy | hy
      · exact absurd ⟨y, hy, hykey⟩ hex
      · rw [List.mem_singleton] at hy
        rw [hy]
        exact applyUpdate_self uc r
theorem rowFixed_upsertRow_other (uc uc' : Bool) (db : List Row) (r s : Row)
    (h : rowFixed uc db r) (hne : s.key ≠ r.key) :
    rowFixed uc (upsertRow uc' db s) r := by
  obtain ⟨⟨x, hx, hxkey⟩, hfix⟩ := h
  rw [upsertRow]
  split
  · constructor
    · refine ⟨x, ?_, hxkey⟩
      have := List.mem_map_of_mem (fun y => if y.key = s.key then applyUpdate uc' y s else y) hx
      have hxs : x.key ≠ s.key := fun hc => hne (hc ▸ hxkey)
      simpa [if_neg hxs] using this
    · intro y hy hykey
      rw [List.mem_map] at hy
      obtain ⟨x', hx', rfl⟩ := hy
      by_cases hk : x'.key = s.key
      · rw [if_pos hk] at hykey ⊢
        rw [applyUpdate_key] at hykey
        exact absurd (hk.symm.trans hykey) hne
      · rw [if_neg hk] at hykey ⊢
        exact hfix x' hx' hykey
  · constructor
    · exact ⟨x, List.mem_append_left _ hx, hxkey⟩
    · intro y hy hykey
      rcases List.mem_append.mp hy with hy | hy
      · exact hfix y hy hykey
      · rw [List.mem_singleton] at hy
        rw [hy] at hykey
        exact absurd hykey hne

theorem rowFixed_upsertAll (uc : Bool) (db : List Row) (r : Row)
    (rows : List (Bool × Row)) (h : rowFixed uc db r)
    (hne : ∀ br ∈ rows, (br : Bool × Row).2.key ≠ r.key) :
    rowFixed uc (upsertAll db rows) r := by
  induction rows generalizing db with
  | nil => exact h
  | cons br rest ih =>
    exact ih (upsertRow br.1 db br.2)
      (rowFixed_upsertRow_other uc br.1 db r br.2 h (hne br (List.mem_cons_self _ _)))
      (fun b hb => hne b (List.mem_cons_of_mem _ hb))

theorem upsertAll_idem (db : List Row) (rows : List (Bool × Row))
    (hnd : (rows.map (fun br => (br : Bool × Row).2.key)).Nodup) :
    upsertAll (upsertAll db rows) rows = upsertAll db rows := by
  induction rows generalizing db with
  | nil => rfl
  | cons br rest ih =>
    rw [List.map_cons, List.nodup_cons] at hnd
    obtain ⟨hnotin, hnd2⟩ := hnd
    show upsertAll (upsertRow br.1 (upsertAll (upsertRow br.1 db br.2) rest) br.2) rest
        = upsertAll (upsertRow br.1 db br.2) rest
    have hfix : rowFixed br.1 (upsertAll (upsertRow br.1 db br.2) rest) br.2 := by
      refine rowFixed_upsertAll br.1 _ br.2 rest (rowFixed_upsertRow_self br.1 db br.2) ?_
      intro b hb hc
      apply hnotin
      rw [← hc]
      exact List.mem_map_of_mem _ hb
    rw [upsertRow_of_rowFixed br.1 _ br.2 hfix]
    exact ih _ hnd2

theorem ledgerWF_upsertRow (uc : Bool) (db : List Row) (r : Row)
    (h : ledgerWF db) : ledgerWF (upsertRow uc db r) := by
  rw [upsertRow]
  split
  · have hkeys : (db.map (fun x => if x.key = r.key then applyUpdate uc x r else x)).map Row.key
        = db.map Row.key := by
      rw [List.map_map]
      apply List.map_congr_left
      intro x hx
      simp only [Function.comp_apply]
      split
      · exact applyUpdate_key uc x r
      · rfl
    rw [ledgerWF, hkeys]
    exact h
  · rename_i hex
    rw [ledgerWF, List.map_append, List.nodup_append]
    refine ⟨h, by simp, ?_⟩
    intro a ha hb
    simp only [List.map_cons, List.map_nil, List.mem_singleton] at hb
    rw [List.mem_map] at ha
    obtain ⟨x, hx, hxk⟩ := ha
    exact hex ⟨x, hx, hxk.trans hb⟩

theorem ledgerWF_upsertAll (db : List Row) (rows : List (Bool × Row))
    (h : ledgerWF db) : ledgerWF (upsertAll db rows) := by
  induction rows generalizing db with
  | nil => exact h
  | cons br rest ih => exact ih _ (ledgerWF_upsertRow br.1 db br.2 h)

theorem save_snapshot_eq_upsertAll (c : ClaudeStats) (mb : MoltbotStats)
    (d : ℤ) (db : List Row) :
    save_snapshot c mb d db = upsertAll db (snapshotRows c mb d) := by
  rw [save_snapshot, snapshotRows, upsertAll, List.foldl_append, List.foldl_map, List.foldl_map]

theorem snapshotRows_keys_nodup (c : ClaudeStats) (mb : MoltbotStats) (d : ℤ)
    (hc : (c.models.map Prod.fst).Nodup) (hm : (mb.by_model.map Prod.fst).Nodup) :
    ((snapshotRows c mb d).map (fun br => (br : Bool × Row).2.key)).Nodup := by
  rw [snapshotRows, List.map_append, List.map_map, List.map_map, List.nodup_append]
  have hcl : (c.models.map ((fun br => (br : Bool × Row).2.key)
      ∘ (fun m => (true, claudeRow d c.total_sessions m))))
      = (c.models.map Prod.fst).map (fun a => (d, "claude", a)) := by
    rw [List.map_map]
    rfl
  have hml : (mb.by_model.map ((fun br => (br : Bool × Row).2.key)
      ∘ (fun m => (false, moltbotRow d m))))
      = (mb.by_model.map Prod.fst).map (fun a => (d, "moltbot", a)) := by
    rw [List.map_map]
    rfl
  refine ⟨?_, ?_, ?_⟩
  · rw [hcl]
    exact hc.map (fun a b hab => by simpa using hab)
  · rw [hml]
    exact hm.map (fun a b hab => by simpa using hab)
  · rw [hcl, hml]
    intro a ha hb
    rw [List.mem_map] at ha hb
    obtain ⟨x, hx, rfl⟩ := ha
    obtain ⟨y, hy, hyk⟩ := hb
    simp at hyk

/-- C4: ingesting the same snapshot twice leaves the ledger exactly
as ingesting it once, and the result satisfies the uniqueness
invariant (at most one row per (date, source, model) key).  The
distinct-keys hypotheses mirror Python dict keys; `ledgerWF` is the
table's UNIQUE constraint. -/
theorem C4_save_snapshot_idempotent (c : ClaudeStats) (mb : MoltbotStats)
    (d : ℤ) (db : List Row)
    (hc : (c.models.map Prod.fst).Nodup) (hm : (mb.by_model.map Prod.fst).Nodup)
    (hwf : ledgerWF db) :
    save_snapshot c mb d (save_snapshot c mb d db) = save_snapshot c mb d db
    ∧ ledgerWF (save_snapshot c mb d db) := by
  simp only [save_snapshot_eq_upsertAll]
  exact ⟨upsertAll_idem db (snapshotRows c mb d) (snapshotRows_keys_nodup c mb d hc hm),
    ledgerWF_upsertAll db (snapshotRows c mb d) hwf⟩

/-- C4 witness: a one-model claude snapshot and a one-model moltbot
snapshot ingested twice into an empty ledger. -/
theorem C4_save_snapshot_idempotent_witness :
    save_snapshot ⟨1, [("m", ⟨1000000, 500000, 0, 0⟩)]⟩ ⟨[("openai/gpt-4o", ⟨7, 8, 2⟩)]⟩ 0
      (save_snapshot ⟨1, [("m", ⟨1000000, 500000, 0, 0⟩)]⟩ ⟨[("openai/gpt-4o", ⟨7, 8, 2⟩)]⟩ 0 [])
      = save_snapshot ⟨1, [("m", ⟨1000000, 500000, 0, 0⟩)]⟩ ⟨[("openai/gpt-4o", ⟨7, 8, 2⟩)]⟩ 0 []
    ∧ ledgerWF (save_snapshot ⟨1, [("m", ⟨1000000, 500000, 0, 0⟩)]⟩
        ⟨[("openai/gpt-4o", ⟨7, 8, 2⟩)]⟩ 0 []) :=
  C4_save_snapshot_idempotent ⟨1, [("m", ⟨1000000, 500000, 0, 0⟩)]⟩
    ⟨[("openai/gpt-4o", ⟨7, 8, 2⟩)]⟩ 0 [] (by simp) (by simp) (by simp [ledgerWF])

/-! ## Lookup lemmas for C2 -/

theorem upsertAll_cons (db : List Row) (br : Bool × Row) (rest : List (Bool × Row)) :
    upsertAll db (br :: rest) = upsertAll (upsertRow br.1 db br.2) rest := rfl

theorem upsertAll_append (db : List Row) (l1 l2 : List (Bool × Row)) :
    upsertAll db (l1 ++ l2) = upsertAll (upsertAll db l1) l2 := by
  rw [upsertAll, upsertAll, upsertAll, List.foldl_append]

theorem dbLookup_cons (x : Row) (db : List Row) (k : ℤ × String × String) :
    dbLookup (x :: db) k = if x.key = k then some x else dbLookup db k := by
  by_cases h : x.key = k
  · rw [if_pos h, dbLookup, List.find?_cons_of_pos _ (by simp [h])]
  · rw [if_neg h, dbLookup, dbLookup, List.find?_cons_of_neg _ (by simp [h])]

theorem dbLookup_map_update (db : List Row) (r : Row) (x0 : Row)
    (hx0 : x0 ∈ db) (hk0 : x0.key = r.key) :
    dbLookup (db.map (fun x => if x.key = r.key then applyUpdate true x r else x)) r.key
      = some r := by
  induction db with
  | nil => cases hx0
  | cons a tl ih =>
    have hfk : (if a.key = r.key then applyUpdate true a r else a).key = a.key := by
      split
      · exact applyUpdate_key true a r
      · rfl
    rw [List.map_cons, dbLookup_cons, hfk]
    by_cases hk : a.key = r.key
    · rw [if_pos hk, if_pos hk, applyUpdate_true_eq a r hk]
    · rw [if_neg hk]
      rcases List.mem_cons.mp hx0 with rfl | hx0a
      · exact absurd hk0 hk
      · exact ih hx0a

theorem dbLookup_append_single_hit (db : List Row) (r : Row)
    (hex : ¬ ∃ x ∈ db, x.key = r.key) :
    dbLookup (db ++ [r]) r.key = some r := by
  induction db with
  | nil =>
    rw [List.nil_append, dbLookup_cons, if_pos rfl]
  | cons a tl ih =>
    rw [List.cons_append, dbLookup_cons]
    by_cases hk : a.key = r.key
    · exact absurd ⟨a, List.mem_cons_self _ _, hk⟩ hex
    · rw [if_neg hk]
      exact ih (fun ⟨x, hx, hxk⟩ => hex ⟨x, List.mem_cons_of_mem _ hx, hxk⟩)

theorem dbLookup_upsertRow_true_self (db : List Row) (r : Row) :
    dbLookup (upsertRow true db r) r.key = some r := by
  rw [upsertRow]
  split
  · rename_i hex
    obtain ⟨x0, hx0, hk0⟩ := hex
    exact dbLookup_map_update db r x0 hx0 hk0
  · rename_i hex
    exact dbLookup_append_single_hit db r hex

theorem dbLookup_append_single_other (db : List Row) (r : Row)
    (k : ℤ × String × String) (hne : k ≠ r.key) :
    dbLookup (db ++ [r]) k = dbLookup db k := by
  induction db with
  | nil =>
    rw [List.nil_append, dbLookup_cons, if_neg (fun hc => hne hc.symm)]
  | cons a tl ih =>
    rw [List.cons_append, dbLookup_cons, dbLookup_cons]
    by_cases hk : a.key = k
    · rw [if_pos hk, if_pos hk]
    · rw [if_neg hk, if_neg hk]
      exact ih

theorem dbLookup_upsertRow_other (uc : Bool) (db : List Row) (r : Row)
    (k : ℤ × String × String) (hne : k ≠ r.key) :
    dbLookup (upsertRow uc db r) k = dbLookup db k := by
  rw [upsertRow]
  split
  · rename_i hex
    clear hex
    induction db with
    | nil => rfl
    | cons a tl ih =>
      have hfk : (if a.key = r.key then applyUpdate uc a r else a).key = a.key := by
        split
        · exact applyUpdate_key uc a r
        · rfl
      rw [List.map_cons, dbLookup_cons, dbLookup_cons, hfk]
      by_cases hk : a.key = k
      · rw [if_pos hk, if_pos hk, if_neg (fun hc => hne (hk.symm.trans hc))]
      · rw [if_neg hk, if_neg hk]
        exact ih
  · exact dbLookup_append_single_other db r k hne

theorem dbLookup_upsertAll_other (db : List Row) (rows : List (Bool × Row))
    (k : ℤ × String × String) (h : ∀ br ∈ rows, k ≠ (br : Bool × Row).2.key) :
    dbLookup (upsertAll db rows) k = dbLookup db k := by
  induction rows generalizing db with
  | nil => rfl
  | cons br rest ih =>
    rw [upsertAll_cons, ih _ (fun b hb => h b (List.mem_cons_of_mem _ hb)),
      dbLookup_upsertRow_other br.1 db br.2 k (h br (List.mem_cons_self _ _))]

theorem lookup_claude_fold (d s : ℤ) (models : List (String × ClaudeUsage))
    (db : List Row) (m : String × ClaudeUsage) (hm : m ∈ models)
    (hnd : (models.map Prod.fst).Nodup) :
    dbLookup (upsertAll db (models.map (fun x => (true, claudeRow d s x))))
      (claudeRow d s m).key = some (claudeRow d s m) := by
  induction models generalizing db with
  | nil => cases hm
  | cons a tl ih =>
    rw [List.map_cons, List.nodup_cons] at hnd
    obtain ⟨hna, hnd2⟩ := hnd
    rw [List.map_cons, upsertAll_cons]
    rcases List.mem_cons.mp hm with rfl | hm2
    · rw [dbLookup_upsertAll_other]
      · exact dbLookup_upsertRow_true_self db (claudeRow d s m)
      · intro br hbr
        rw [List.mem_map] at hbr
        obtain ⟨x, hx, rfl⟩ := hbr
        intro hc
        apply hna
        have hx1 : m.1 = x.1 := by
          simpa [claudeRow, Row.key] using hc
        rw [hx1]
        exact List.mem_map_of_mem Prod.fst hx
    · exact ih _ hm2 hnd2

/-! ## C2 -/

/-- The model name "m" is absent from `estimate_claude_cost`'s table,
so the Sonnet default prices ($3/M input, $15/M output) apply:
1,000,000 input and 500,000 output tokens cost exactly $10.50. -/
theorem estimate_claude_cost_default_example :
    estimate_claude_cost "m" 1000000 500000 0 0 = 21 / 2 := by
  have h : claudePricingTable.find? (fun p => p.1 == "m") = none := by decide
  simp only [estimate_claude_cost, h, Option.map_none, Option.getD_none]
  norm_num [pyRound, pyRoundInt]

/-- C2 counterexample: `save_snapshot` prices claude rows with
`estimate_claude_cost` (src/history.py), not with `estimate_cost` of
section 4.2 (src/pricing.py).  Ingesting model "m" with
input = 1,000,000 and output = 500,000 stores cost 10.5 (Sonnet
default pricing), while `estimate_cost` returns 0 for the same model
and token counts, since "m" is unpriced there. -/
theorem C2_counterexample :
    ((save_snapshot ⟨1, [("m", ⟨1000000, 500000, 0, 0⟩)]⟩ ⟨[]⟩ 0 []).map Row.cost_estimate
      = [21 / 2])
    ∧ estimate_cost "m" 1000000 500000 0 0 = 0
    ∧ (21 / 2 : ℚ) ≠ 0 := by
  refine ⟨?_, ?_, by norm_num⟩
  · simp [save_snapshot, upsertRow, claudeRow, estimate_claude_cost_default_example]
  · have h : get_model_pricing "m" = none := by decide
    simp [estimate_cost, h]

/-- C2 (amended): for every claude-source snapshot entry, the ledger
row stored by `save_snapshot` under (date, "claude", model) is exactly
the ingested row, whose cost_estimate is computed by
`estimate_claude_cost` (history.py's own estimator, which defaults
unknown models to Sonnet pricing) — not by `estimate_cost`; in
particular the end-to-end scenario input = 1,000,000,
output = 500,000 at $3/M and $15/M stores exactly 10.5. -/
theorem C2_amended_stored_cost (c : ClaudeStats) (mb : MoltbotStats)
    (d : ℤ) (db : List Row) (hc : (c.models.map Prod.fst).Nodup)
    (m : String × ClaudeUsage) (hm : m ∈ c.models) :
    dbLookup (save_snapshot c mb d db) (d, "claude", m.1)
      = some (claudeRow d c.total_sessions m)
    ∧ (claudeRow d c.total_sessions m).cost_estimate
      = estimate_claude_cost m.1 m.2.input m.2.output m.2.cache_read m.2.cache_write
    ∧ estimate_claude_cost "m" 1000000 500000 0 0 = 21 / 2 := by
  refine ⟨?_, rfl, estimate_claude_cost_default_example⟩
  rw [save_snapshot_eq_upsertAll, snapshotRows, upsertAll_append]
  rw [dbLookup_upsertAll_other]
  · have hk : (d, "claude", m.1) = (claudeRow d c.total_sessions m).key := rfl
    rw [hk]
    exact lookup_claude_fold d c.total_sessions c.models db m hm hc
  · intro br hbr
    rw [List.mem_map] at hbr
    obtain ⟨x, hx, rfl⟩ := hbr
    simp [moltbotRow, Row.key]

/-- C2 witness: the end-to-end scenario on an empty ledger. -/
theorem C2_amended_stored_cost_witness :
    dbLookup (save_snapshot ⟨1, [("m", ⟨1000000, 500000, 0, 0⟩)]⟩ ⟨[]⟩ 0 [])
        (0, "claude", "m")
      = some (claudeRow 0 1 ("m", ⟨1000000, 500000, 0, 0⟩))
    ∧ estimate_claude_cost "m" 1000000 500000 0 0 = 21 / 2 := by
  have h := C2_amended_stored_cost ⟨1, [("m", ⟨1000000, 500000, 0, 0⟩)]⟩ ⟨[]⟩ 0 []
    (by simp) ("m", ⟨1000000, 500000, 0, 0⟩) (by simp)
  exact ⟨h.1, h.2.2⟩

end TokenMonitor
